import Mathlib

/-!
Shallow embedding of the order-lifecycle engine of the `ecom_shoe` repository
(files `orders/models.py`, `orders/admin.py`, `products/models.py`).

Conventions of the embedding:
* `Status` mirrors `Order.Status` (the rich seven-state scheme).
* Decimal amounts (prices, fees, totals) are modelled as `Int` (a fixed
  scaling of the decimal values); quantities are `Nat`.
* Variant stock is a total map `Nat → Int` from variant id to stock count.
  The Django field is a `PositiveIntegerField`, but the decrement is an
  `F("stock") - quantity` expression update which the Python layer applies
  without any sign check, so the embedding uses `Int` to keep the written
  value observable.
* An `OrderState` is the persisted row of one order together with its item
  rows.  The Python methods mutate the database only after `clean()`
  succeeds, so each operation is a function returning `Except`: an `error`
  result means the database was left untouched.
* `orderSave stocks o newStatus now` models calling `order.save()` on an
  existing order whose stored status is `o.status` after the caller assigned
  `order.order_status = newStatus`.  Non-status field edits made by the
  caller before saving are represented by editing the fields of `o` itself.
-/

namespace EcomShoe

/-- `Order.Status` from `orders/models.py`. -/
inductive Status where
  | Pending
  | Confirmed
  | OnTheWay
  | Delivered
  | ReturnedByClient
  | ReturnedByOwner
  | Cancelled
deriving DecidableEq, Repr

/-- One `OrderItem` row: `product_variant` is nullable (`blank=True, null=True`),
`quantity` is a `PositiveIntegerField`, `price` the snapshotted decimal. -/
structure Item where
  variantId : Option Nat
  quantity : Nat
  price : Int
deriving DecidableEq, Repr

/-- The persisted state of one `Order` row together with its items. -/
structure OrderState where
  status : Status
  confirmedAt : Option Nat
  onTheWayAt : Option Nat
  deliveredAt : Option Nat
  returnedAt : Option Nat
  cancelledAt : Option Nat
  deliveryFees : Int
  totalAmount : Int
  items : List Item
deriving DecidableEq, Repr

/-- The two `ValidationError` shapes raised by `Order.clean`. -/
inductive OrderError where
  | invalidTransition (old new : Status)
  | insufficientStock (variantId required : Nat) (available : Int)
deriving DecidableEq, Repr

/-- The `valid_transitions` dictionary of `Order.clean` (also duplicated in
`OrderAdmin.save_model`). -/
def allowedTargets : Status → List Status
  | .Pending => [.Confirmed, .Cancelled]
  | .Confirmed => [.OnTheWay, .Cancelled]
  | .OnTheWay => [.Delivered, .ReturnedByClient, .ReturnedByOwner]
  | .Delivered => []
  | .Cancelled => []
  | .ReturnedByClient => []
  | .ReturnedByOwner => []

/-- The stock-validation loop of `Order.clean`: iterate over the items and
raise on the first item whose variant is set and has `stock < quantity`.
Items with a null `product_variant` are skipped (`if pv and ...`).
Returns the data of the first failing item, if any. -/
def findInsufficient (stocks : Nat → Int) : List Item → Option (Nat × Nat × Int)
  | [] => none
  | it :: rest =>
    match it.variantId with
    | some v =>
        if stocks v < (it.quantity : Int) then some (v, it.quantity, stocks v)
        else findInsufficient stocks rest
    | none => findInsufficient stocks rest

/-- `Order.clean` for an existing order (`self.pk` set): `old` is the status
re-read from the database, `new` the in-memory `order_status`. -/
def cleanCheck (stocks : Nat → Int) (old new : Status) (items : List Item) :
    Except OrderError Unit :=
  if new ≠ old ∧ new ∉ allowedTargets old then
    .error (.invalidTransition old new)
  else if (old = .Pending ∧ new = .Confirmed) ∨ (old = .Confirmed ∧ new = .OnTheWay) then
    match findInsufficient stocks items with
    | some (v, req, avail) => .error (.insufficientStock v req avail)
    | none => .ok ()
  else .ok ()

/-- The timestamp `if/elif` chain of `Order.save`: each field is written only
when the current status matches and the field is still unset (`not self.x`). -/
def setTimestamps (o : OrderState) (now : Nat) : OrderState :=
  if o.status = .Confirmed ∧ o.confirmedAt = none then
    { o with confirmedAt := some now }
  else if o.status = .OnTheWay ∧ o.onTheWayAt = none then
    { o with onTheWayAt := some now }
  else if o.status = .Delivered ∧ o.deliveredAt = none then
    { o with deliveredAt := some now }
  else if (o.status = .ReturnedByClient ∨ o.status = .ReturnedByOwner) ∧ o.returnedAt = none then
    { o with returnedAt := some now }
  else if o.status = .Cancelled ∧ o.cancelledAt = none then
    { o with cancelledAt := some now }
  else o

/-- `Order.decrement_stock`: for every item with a non-null variant, apply the
atomic update `stock = F("stock") - quantity`, sequentially over the items. -/
def decrementAll (stocks : Nat → Int) : List Item → (Nat → Int)
  | [] => stocks
  | it :: rest =>
    match it.variantId with
    | some v =>
        decrementAll (fun x => if x = v then stocks x - (it.quantity : Int) else stocks x) rest
    | none => decrementAll stocks rest

/-- `Order.increment_stock`: `stock = F("stock") + quantity` per non-null item. -/
def incrementAll (stocks : Nat → Int) : List Item → (Nat → Int)
  | [] => stocks
  | it :: rest =>
    match it.variantId with
    | some v =>
        incrementAll (fun x => if x = v then stocks x + (it.quantity : Int) else stocks x) rest
    | none => incrementAll stocks rest

/-- `Order.save` on an existing order.  `o` is the stored row (with any
non-status in-memory edits already applied to its fields), `newStatus` the
requested `order_status`.  The old status is re-read from the database
(`Order.objects.get(pk=self.pk).order_status`), `clean()` runs before any
write, then the timestamp pass, the row write, and the stock logic guarded
by `old_status != self.order_status`. -/
def orderSave (stocks : Nat → Int) (o : OrderState) (newStatus : Status) (now : Nat) :
    Except OrderError (OrderState × (Nat → Int)) :=
  let old := o.status
  match cleanCheck stocks old newStatus o.items with
  | .error e => .error e
  | .ok _ =>
    let o1 := setTimestamps { o with status := newStatus } now
    let stocks1 :=
      if old ≠ newStatus then
        if newStatus = .OnTheWay then decrementAll stocks o1.items
        else if newStatus = .ReturnedByClient ∨ newStatus = .ReturnedByOwner then
          incrementAll stocks o1.items
        else stocks
      else stocks
    .ok (o1, stocks1)

/-- `Order.save` on a fresh order (`self.pk is None`): `clean` skips all checks,
the timestamp pass runs, and the stock logic sees `old_status = None` which
differs from every status — but at creation time the reverse `items` relation
is necessarily empty (items reference the order's pk), so the stock folds run
over the empty list. -/
def orderCreate (stocks : Nat → Int) (status : Status) (fees : Int) (now : Nat) :
    OrderState × (Nat → Int) :=
  let o := setTimestamps
    { status := status, confirmedAt := none, onTheWayAt := none, deliveredAt := none,
      returnedAt := none, cancelledAt := none, deliveryFees := fees, totalAmount := 0,
      items := [] } now
  let stocks1 :=
    if status = .OnTheWay then decrementAll stocks o.items
    else if status = .ReturnedByClient ∨ status = .ReturnedByOwner then incrementAll stocks o.items
    else stocks
  (o, stocks1)

/-- The aggregate `Sum(F("price") * F("quantity"))` of `Order.update_total`
(`None`, i.e. no items, collapses to `0` via `or 0`). -/
def itemsTotal (items : List Item) : Int :=
  (items.map (fun it => it.price * (it.quantity : Int))).sum

/-- `Order.update_total`: recompute `total_amount` from the item rows plus
`delivery_fees`, then persist it with `save(update_fields=["total_amount"])` —
that nested save writes only the total (its status is unchanged, so `clean`
passes and no stock logic fires, and timestamps touched in memory are not
part of `update_fields`). -/
def updateTotal (o : OrderState) : OrderState :=
  { o with totalAmount := itemsTotal o.items + o.deliveryFees }

/-- Read-side catalog data used by `OrderItem.save`.  `variantPrice` models
`hasattr(variant, "price") and variant.price is not None`; the `ProductVariant`
model in `products/models.py` declares no `price` field, so in this system the
variant branch is dead and the product price is always used. -/
structure Catalog where
  variantPrice : Nat → Option Int
  variantProduct : Nat → Nat
  productPrice : Nat → Int

/-- The price-snapshot step of `OrderItem.save`: when a variant is set, take
its price if it has one, otherwise fall back to `variant.product.price`;
a null-variant item keeps its price. -/
def snapshotPrice (cat : Catalog) (it : Item) : Item :=
  match it.variantId with
  | some v =>
    match cat.variantPrice v with
    | some p => { it with price := p }
    | none => { it with price := cat.productPrice (cat.variantProduct v) }
  | none => it

/-- `OrderItem.save` for a new item row: snapshot the price, insert the row,
then `order.update_total()`. -/
def orderItemAdd (cat : Catalog) (o : OrderState) (it : Item) : OrderState :=
  updateTotal { o with items := o.items ++ [snapshotPrice cat it] }

/-- `OrderItem.save` for an existing item row (position `i`): the price is
re-snapshotted on every save, then `order.update_total()`. -/
def orderItemUpdate (cat : Catalog) (o : OrderState) (i : Nat) (it : Item) : OrderState :=
  updateTotal { o with items := o.items.set i (snapshotPrice cat it) }

/-- `OrderItem.delete`: remove the row then `order.update_total()`. -/
def orderItemDelete (o : OrderState) (i : Nat) : OrderState :=
  updateTotal { o with items := o.items.eraseIdx i }

/-- Editing `delivery_fees` on an order and saving it: the admin change form
submits the order with its current status, so `Order.save` runs as a no-op
transition.  `Order.save` never calls `update_total`. -/
def changeDeliveryFees (stocks : Nat → Int) (o : OrderState) (fee : Int) (now : Nat) :
    Except OrderError (OrderState × (Nat → Int)) :=
  orderSave stocks { o with deliveryFees := fee } o.status now

/-- The failure shapes of the `OrderAdmin` bulk actions: the status guard
message, the `ValidationError` raised by the action's own stock loop
(`dispatchFailure` carries the possibly-null variant of the failing item in
`mark_as_on_the_way`), or an error propagated from `order.save()`. -/
inductive AdminError where
  | wrongStatus (current : Status)
  | insufficientStock (variantId required : Nat) (available : Int)
  | dispatchFailure (variantId : Option Nat)
  | fromSave (e : OrderError)
deriving DecidableEq, Repr

/-- `OrderAdmin.mark_as_confirmed` on one order of the queryset: only Pending
orders pass the guard; then the per-item stock loop (skipping null variants,
like `Order.clean`); then the action assigns `order_status = CONFIRMED` and
`confirmed_at = timezone.now()` and calls `order.save()`. -/
def markAsConfirmed (stocks : Nat → Int) (o : OrderState) (now : Nat) :
    Except AdminError (OrderState × (Nat → Int)) :=
  if o.status ≠ .Pending then .error (.wrongStatus o.status)
  else
    match findInsufficient stocks o.items with
    | some (v, req, avail) => .error (.insufficientStock v req avail)
    | none =>
      match orderSave stocks { o with confirmedAt := some now } .Confirmed now with
      | .ok r => .ok r
      | .error e => .error (.fromSave e)

/-- The stock loop of `OrderAdmin.mark_as_on_the_way`: `variants_map` is built
from the order's non-null variant ids, and the loop raises when
`variants_map.get(it.product_variant_id)` is `None` — which happens exactly
for items whose `product_variant_id` is null (referenced variants always
exist, the foreign key is `PROTECT`) — or when the locked row shows
`stock < quantity`.  Returns the first failing item. -/
def findDispatchFailure (stocks : Nat → Int) : List Item → Option Item
  | [] => none
  | it :: rest =>
    match it.variantId with
    | none => some it
    | some v =>
        if stocks v < (it.quantity : Int) then some it
        else findDispatchFailure stocks rest

/-- `OrderAdmin.mark_as_on_the_way` on one order: only Confirmed orders pass
the guard; then the locked re-check (`findDispatchFailure`); then the action
assigns `order_status = ON_THE_WAY` and `on_the_way_at = timezone.now()` and
calls `order.save()`. -/
def markAsOnTheWay (stocks : Nat → Int) (o : OrderState) (now : Nat) :
    Except AdminError (OrderState × (Nat → Int)) :=
  if o.status ≠ .Confirmed then .error (.wrongStatus o.status)
  else
    match findDispatchFailure stocks o.items with
    | some it => .error (.dispatchFailure it.variantId)
    | none =>
      match orderSave stocks { o with onTheWayAt := some now } .OnTheWay now with
      | .ok r => .ok r
      | .error e => .error (.fromSave e)

/-- `OrderAdmin.mark_as_delivered` on one order: only OnTheWay orders pass;
no stock loop; sets `delivered_at` then saves. -/
def markAsDelivered (stocks : Nat → Int) (o : OrderState) (now : Nat) :
    Except AdminError (OrderState × (Nat → Int)) :=
  if o.status ≠ .OnTheWay then .error (.wrongStatus o.status)
  else
    match orderSave stocks { o with deliveredAt := some now } .Delivered now with
    | .ok r => .ok r
    | .error e => .error (.fromSave e)

/-- The status set of `OrderItemInline.get_readonly_fields` under which the
item fields become read-only (OnTheWay plus every terminal status). -/
def lockedStatuses : List Status :=
  [.OnTheWay, .Delivered, .ReturnedByClient, .ReturnedByOwner, .Cancelled]

/-- The inline's always-read-only fields. -/
def inlineBaseReadonly : List String :=
  ["price", "get_product_name", "get_product_size", "get_product_color"]

/-- `OrderItemInline.get_readonly_fields`: for a saved order in a locked
status, `product_variant` and `quantity` are appended to the read-only set. -/
def inlineReadonlyFields : Option Status → List String
  | some s =>
      if s ∈ lockedStatuses then inlineBaseReadonly ++ ["product_variant", "quantity"]
      else inlineBaseReadonly
  | none => inlineBaseReadonly

/-- `OrderItemInline.has_add_permission`: `return obj is None` — adding item
rows is allowed only while the order itself is being created. -/
def inlineHasAddPermission (obj : Option Status) : Bool :=
  obj.isNone

/-- `OrderItemInline.has_delete_permission`: `return obj is None`. -/
def inlineHasDeletePermission (obj : Option Status) : Bool :=
  obj.isNone

/-- Total quantity that the order's items request from variant `v`
(null-variant items contribute nothing). -/
def sumQty (v : Nat) : List Item → Nat
  | [] => 0
  | it :: rest => (if it.variantId = some v then it.quantity else 0) + sumQty v rest

/-- Observation helper: the stored stock of variant `v` after a save result
(`none` when the save was rejected). -/
def saveStock (r : Except OrderError (OrderState × (Nat → Int))) (v : Nat) : Option Int :=
  match r with
  | .ok (_, s) => some (s v)
  | .error _ => none

/-- Observation helper: the stored order row after a save result. -/
def saveOrder (r : Except OrderError (OrderState × (Nat → Int))) : Option OrderState :=
  match r with
  | .ok (o, _) => some o
  | .error _ => none

/-- Observation helper: whether `total_amount = Σ price·quantity + delivery_fees`
holds on the stored row after a save result. -/
def totalConsistentAfter (r : Except OrderError (OrderState × (Nat → Int))) : Option Bool :=
  match r with
  | .ok (o, _) => some (o.totalAmount == itemsTotal o.items + o.deliveryFees)
  | .error _ => none

/-- States whose current status already carries its timestamp — every order
that reached its status through `Order.save` or the admin paths satisfies
this (each entry into a status stamps its field). -/
def tsOk (o : OrderState) : Prop :=
  (o.status = .Confirmed → o.confirmedAt ≠ none) ∧
  (o.status = .OnTheWay → o.onTheWayAt ≠ none) ∧
  (o.status = .Delivered → o.deliveredAt ≠ none) ∧
  ((o.status = .ReturnedByClient ∨ o.status = .ReturnedByOwner) → o.returnedAt ≠ none) ∧
  (o.status = .Cancelled → o.cancelledAt ≠ none)

instance (o : OrderState) : Decidable (tsOk o) := by
  unfold tsOk
  infer_instance

/-- A stock table with every variant at 0 units. -/
def stocksZero : Nat → Int := fun _ => 0

/-- A stock table with every variant at 4 units. -/
def stocksFour : Nat → Int := fun _ => 4

/-- A freshly created Pending order with no items. -/
def basePending : OrderState :=
  { status := .Pending, confirmedAt := none, onTheWayAt := none, deliveredAt := none,
    returnedAt := none, cancelledAt := none, deliveryFees := 0, totalAmount := 0, items := [] }

/-- A Pending order with one item requesting 5 units of variant 1 at price 10. -/
def pendingBigItem : OrderState :=
  { basePending with items := [⟨some 1, 5, 10⟩], totalAmount := 50 }

/-- A Pending order with one item requesting 1 unit of variant 1 at price 10. -/
def pendingSmallItem : OrderState :=
  { basePending with items := [⟨some 1, 1, 10⟩], totalAmount := 10 }

/-- A Confirmed order with one item requesting 3 units of variant 1 at price 10. -/
def confirmedOneItem : OrderState :=
  { basePending with
    status := .Confirmed
    confirmedAt := some 0
    items := [⟨some 1, 3, 10⟩]
    totalAmount := 30 }

/-- A Confirmed order with two items, both requesting 3 units of the same
variant 1 at price 10. -/
def confirmedDupItems : OrderState :=
  { basePending with
    status := .Confirmed
    confirmedAt := some 0
    items := [⟨some 1, 3, 10⟩, ⟨some 1, 3, 10⟩]
    totalAmount := 60 }

/-- A Confirmed order with a single item whose `product_variant` is null. -/
def confirmedNullItem : OrderState :=
  { basePending with
    status := .Confirmed
    confirmedAt := some 0
    items := [⟨none, 2, 5⟩]
    totalAmount := 10 }

/-- An OnTheWay order with one item of variant 1 (a locked status). -/
def onTheWayOrder : OrderState :=
  { basePending with
    status := .OnTheWay
    confirmedAt := some 0
    onTheWayAt := some 1
    items := [⟨some 1, 3, 10⟩]
    totalAmount := 30 }

/-- A catalog in which every product costs 10 and no variant has its own price. -/
def catalogTen : Catalog :=
  { variantPrice := fun _ => none, variantProduct := fun _ => 0, productPrice := fun _ => 10 }

/-- The same catalog after the product price was raised to 20. -/
def catalogTwenty : Catalog :=
  { variantPrice := fun _ => none, variantProduct := fun _ => 0, productPrice := fun _ => 20 }

/-- Observation helper: the save was rejected by the stock gate
(`ValidationError` with the not-enough-stock message). -/
def isInsufficient : Except OrderError (OrderState × (Nat → Int)) → Bool
  | .error (.insufficientStock _ _ _) => true
  | _ => false

/-- Observation helper: a bulk-action invocation ended in an error (message
to the admin user, order untouched). -/
def adminRejected : Except AdminError (OrderState × (Nat → Int)) → Bool
  | .error _ => true
  | .ok _ => false

/-- Observation helper: the bulk dispatch loop raised its own stock
`ValidationError`. -/
def isDispatchStockError : Except AdminError (OrderState × (Nat → Int)) → Bool
  | .error (.dispatchFailure _) => true
  | _ => false

/-- The row stored by dispatching `confirmedOneItem` at time 2. -/
def afterDispatch : OrderState :=
  { confirmedOneItem with status := .OnTheWay, onTheWayAt := some 2 }

/-- The stock table after dispatching `confirmedOneItem`. -/
def afterDispatchStocks : Nat → Int :=
  decrementAll stocksFour confirmedOneItem.items

/-- The row stored by cancelling `confirmedOneItem` at time 3. -/
def afterCancel : OrderState :=
  { confirmedOneItem with status := .Cancelled, cancelledAt := some 3 }

/-- `basePending` after one item (variant 1, quantity 2) is saved under
`catalogTen`. -/
def itemSnapshotOnce : OrderState :=
  orderItemAdd catalogTen basePending ⟨some 1, 2, 0⟩

/-- `itemSnapshotOnce` after its item is edited (quantity 3) and re-saved
under `catalogTwenty` — the catalog price changed between the two saves. -/
def itemResaved : OrderState :=
  orderItemUpdate catalogTwenty itemSnapshotOnce 0 ⟨some 1, 3, 10⟩

-- ======================================================================
-- Helper lemmas
-- ======================================================================

theorem setTimestamps_status (o : OrderState) (now : Nat) :
    (setTimestamps o now).status = o.status := by
  unfold setTimestamps
  repeat' split
  all_goals rfl

theorem setTimestamps_items (o : OrderState) (now : Nat) :
    (setTimestamps o now).items = o.items := by
  unfold setTimestamps
  repeat' split
  all_goals rfl

theorem setTimestamps_totalAmount (o : OrderState) (now : Nat) :
    (setTimestamps o now).totalAmount = o.totalAmount := by
  unfold setTimestamps
  repeat' split
  all_goals rfl

theorem setTimestamps_deliveryFees (o : OrderState) (now : Nat) :
    (setTimestamps o now).deliveryFees = o.deliveryFees := by
  unfold setTimestamps
  repeat' split
  all_goals rfl

theorem setTimestamps_confirmedAt (o : OrderState) (now : Nat) :
    (setTimestamps o now).confirmedAt =
      if o.status = .Confirmed ∧ o.confirmedAt = none then some now else o.confirmedAt := by
  unfold setTimestamps
  repeat' split
  all_goals simp_all

theorem setTimestamps_onTheWayAt (o : OrderState) (now : Nat) :
    (setTimestamps o now).onTheWayAt =
      if o.status = .OnTheWay ∧ o.onTheWayAt = none then some now else o.onTheWayAt := by
  unfold setTimestamps
  repeat' split
  all_goals simp_all

theorem setTimestamps_deliveredAt (o : OrderState) (now : Nat) :
    (setTimestamps o now).deliveredAt =
      if o.status = .Delivered ∧ o.deliveredAt = none then some now else o.deliveredAt := by
  unfold setTimestamps
  repeat' split
  all_goals simp_all

theorem setTimestamps_returnedAt (o : OrderState) (now : Nat) :
    (setTimestamps o now).returnedAt =
      if (o.status = .ReturnedByClient ∨ o.status = .ReturnedByOwner) ∧ o.returnedAt = none
      then some now else o.returnedAt := by
  unfold setTimestamps
  repeat' split
  all_goals simp_all

theorem setTimestamps_cancelledAt (o : OrderState) (now : Nat) :
    (setTimestamps o now).cancelledAt =
      if o.status = .Cancelled ∧ o.cancelledAt = none then some now else o.cancelledAt := by
  unfold setTimestamps
  repeat' split
  all_goals simp_all

theorem decrementAll_apply (items : List Item) (stocks : Nat → Int) (x : Nat) :
    decrementAll stocks items x = stocks x - (sumQty x items : Int) := by
  induction items generalizing stocks with
  | nil => simp [decrementAll, sumQty]
  | cons it rest ih =>
    cases h : it.variantId with
    | none => simp [decrementAll, sumQty, h, ih]
    | some w =>
      simp only [decrementAll, sumQty, h]
      rw [ih]
      by_cases hx : x = w
      · subst hx
        simp only [if_pos rfl]
        push_cast
        ring
      · have hw : ¬ (some w = some x) := by
          simp [Ne.symm hx]
        simp only [if_neg hx, hw, if_neg]
        push_cast
        ring

theorem incrementAll_apply (items : List Item) (stocks : Nat → Int) (x : Nat) :
    incrementAll stocks items x = stocks x + (sumQty x items : Int) := by
  induction items generalizing stocks with
  | nil => simp [incrementAll, sumQty]
  | cons it rest ih =>
    cases h : it.variantId with
    | none => simp [incrementAll, sumQty, h, ih]
    | some w =>
      simp only [incrementAll, sumQty, h]
      rw [ih]
      by_cases hx : x = w
      · subst hx
        simp only [if_pos rfl]
        push_cast
        ring
      · have hw : ¬ (some w = some x) := by
          simp [Ne.symm hx]
        simp only [if_neg hx, hw, if_neg]
        push_cast
        ring

theorem findInsufficient_of_exists (stocks : Nat → Int) (items : List Item)
    (h : ∃ it ∈ items, ∃ w, it.variantId = some w ∧ stocks w < (it.quantity : Int)) :
    ∃ v req, findInsufficient stocks items = some (v, req, stocks v) ∧ stocks v < (req : Int) := by
  induction items with
  | nil => simp at h
  | cons it rest ih =>
    rcases h with ⟨jt, hjt, w, hw, hlt⟩
    rcases List.mem_cons.mp hjt with hhead | htail
    · subst hhead
      exact ⟨w, jt.quantity, by simp [findInsufficient, hw, hlt], hlt⟩
    · cases hv : it.variantId with
      | none =>
        have := ih ⟨jt, htail, w, hw, hlt⟩
        simpa [findInsufficient, hv] using this
      | some u =>
        by_cases hu : stocks u < (it.quantity : Int)
        · exact ⟨u, it.quantity, by simp [findInsufficient, hv, hu], hu⟩
        · have := ih ⟨jt, htail, w, hw, hlt⟩
          simpa [findInsufficient, hv, hu] using this

theorem findInsufficient_skips_null (stocks : Nat → Int) (items : List Item) :
    findInsufficient stocks items
      = findInsufficient stocks (items.filter (fun it => it.variantId.isSome)) := by
  induction items with
  | nil => rfl
  | cons it rest ih =>
    cases hv : it.variantId with
    | none => simp [findInsufficient, List.filter_cons, hv, ih]
    | some u =>
      by_cases hu : stocks u < (it.quantity : Int)
      · simp [findInsufficient, List.filter_cons, hv, hu]
      · simp [findInsufficient, List.filter_cons, hv, hu, ih]

theorem sumQty_skips_null (v : Nat) (items : List Item) :
    sumQty v (items.filter (fun it => it.variantId.isSome)) = sumQty v items := by
  induction items with
  | nil => rfl
  | cons it rest ih =>
    cases hv : it.variantId with
    | none => simp [sumQty, List.filter_cons, hv, ih]
    | some u => simp [sumQty, List.filter_cons, hv, ih]

theorem findDispatchFailure_isSome_of_null (stocks : Nat → Int) (items : List Item)
    (h : ∃ it ∈ items, it.variantId = none) :
    (findDispatchFailure stocks items).isSome := by
  induction items with
  | nil => simp at h
  | cons it rest ih =>
    rcases h with ⟨jt, hjt, hw⟩
    rcases List.mem_cons.mp hjt with hhead | htail
    · subst hhead
      simp [findDispatchFailure, hw]
    · cases hv : it.variantId with
      | none => simp [findDispatchFailure, hv]
      | some u =>
        by_cases hu : stocks u < (it.quantity : Int)
        · simp [findDispatchFailure, hv, hu]
        · have := ih ⟨jt, htail, hw⟩
          simpa [findDispatchFailure, hv, hu] using this

theorem cleanCheck_invalid (stocks : Nat → Int) (old new : Status) (items : List Item)
    (h1 : new ≠ old) (h2 : new ∉ allowedTargets old) :
    cleanCheck stocks old new items = .error (.invalidTransition old new) := by
  simp [cleanCheck, h1, h2]

theorem cleanCheck_ok_legal (stocks : Nat → Int) (old new : Status) (items : List Item)
    (h : cleanCheck stocks old new items = .ok ()) :
    new = old ∨ new ∈ allowedTargets old := by
  by_cases hc : new ≠ old ∧ new ∉ allowedTargets old
  · rw [cleanCheck_invalid stocks old new items hc.1 hc.2] at h
    exact absurd h (by simp)
  · push_neg at hc
    by_cases he : new = old
    · exact Or.inl he
    · exact Or.inr (hc he)

/-- Inversion of a successful `orderSave`: the stored row is the timestamp
pass over the status write, and the stock table is rewritten exactly by the
transition's stock logic. -/
theorem orderSave_ok_inv (stocks : Nat → Int) (o : OrderState) (newStatus : Status) (now : Nat)
    (o' : OrderState) (s' : Nat → Int)
    (h : orderSave stocks o newStatus now = .ok (o', s')) :
    cleanCheck stocks o.status newStatus o.items = .ok () ∧
    o' = setTimestamps { o with status := newStatus } now ∧
    s' = (if o.status ≠ newStatus then
            if newStatus = .OnTheWay then decrementAll stocks o'.items
            else if newStatus = .ReturnedByClient ∨ newStatus = .ReturnedByOwner then
              incrementAll stocks o'.items
            else stocks
          else stocks) := by
  unfold orderSave at h
  cases hc : cleanCheck stocks o.status newStatus o.items with
  | error e =>
    simp only [hc] at h
    exact absurd h (by simp)
  | ok u =>
    cases u
    simp only [hc, Except.ok.injEq, Prod.mk.injEq] at h
    exact ⟨rfl, h.1.symm, by rw [← h.1, ← h.2]⟩

theorem findDispatchFailure_isSome_of_insufficient (stocks : Nat → Int) (items : List Item)
    (h : ∃ it ∈ items, ∃ w, it.variantId = some w ∧ stocks w < (it.quantity : Int)) :
    (findDispatchFailure stocks items).isSome := by
  induction items with
  | nil => simp at h
  | cons it rest ih =>
    rcases h with ⟨jt, hjt, w, hw, hlt⟩
    rcases List.mem_cons.mp hjt with hhead | htail
    · subst hhead
      simp [findDispatchFailure, hw, hlt]
    · cases hv : it.variantId with
      | none => simp [findDispatchFailure, hv]
      | some u =>
        by_cases hu : stocks u < (it.quantity : Int)
        · simp [findDispatchFailure, hv, hu]
        · have := ih ⟨jt, htail, w, hw, hlt⟩
          simpa [findDispatchFailure, hv, hu] using this

theorem cleanCheck_gate_fail (stocks : Nat → Int) (old new : Status) (items : List Item)
    (v req : Nat) (a : Int)
    (hgate : (old = .Pending ∧ new = .Confirmed) ∨ (old = .Confirmed ∧ new = .OnTheWay))
    (hfi : findInsufficient stocks items = some (v, req, a)) :
    cleanCheck stocks old new items = .error (.insufficientStock v req a) := by
  rcases hgate with ⟨h1, h2⟩ | ⟨h1, h2⟩ <;> subst h1 <;> subst h2 <;>
    simp [cleanCheck, allowedTargets, hfi]

theorem setTimestamps_id_of_tsOk (o : OrderState) (now : Nat) (h : tsOk o) :
    setTimestamps o now = o := by
  obtain ⟨h1, h2, h3, h4, h5⟩ := h
  unfold setTimestamps
  rw [if_neg fun hc => h1 hc.1 hc.2, if_neg fun hc => h2 hc.1 hc.2,
    if_neg fun hc => h3 hc.1 hc.2, if_neg fun hc => h4 hc.1 hc.2,
    if_neg fun hc => h5 hc.1 hc.2]

-- ======================================================================
-- Claim theorems
-- ======================================================================

/-- C1: an order's status moves only along the edges of the transition table
(`Pending→{Confirmed,Cancelled}`, `Confirmed→{OnTheWay,Cancelled}`,
`OnTheWay→{Delivered,ReturnedByClient,ReturnedByOwner}`, terminal states have
none); requesting any target outside the allowed set of the current status
fails with `InvalidTransition(old, new)` — the error is raised before any
write, so status, timestamps and stock stay as stored. -/
theorem transition_table_enforced (stocks : Nat → Int) (o : OrderState) (new : Status)
    (now : Nat) :
    (new ≠ o.status → new ∉ allowedTargets o.status →
      orderSave stocks o new now = .error (.invalidTransition o.status new)) ∧
    (∀ o' s', orderSave stocks o new now = .ok (o', s') →
      o'.status = new ∧ (o'.status = o.status ∨ o'.status ∈ allowedTargets o.status)) := by
  constructor
  · intro h1 h2
    unfold orderSave
    simp only [cleanCheck_invalid stocks o.status new o.items h1 h2]
  · intro o' s' h
    obtain ⟨hc, ho, _⟩ := orderSave_ok_inv stocks o new now o' s' h
    have hst : o'.status = new := by rw [ho, setTimestamps_status]
    refine ⟨hst, ?_⟩
    rcases cleanCheck_ok_legal stocks o.status new o.items hc with he | hm
    · exact Or.inl (hst.trans he)
    · exact Or.inr (by rw [hst]; exact hm)

/-- Witness for C1 at a concrete input: requesting `Delivered` on a Pending
order is rejected as `InvalidTransition(Pending, Delivered)`. -/
theorem transition_table_enforced_witness :
    orderSave stocksFour basePending .Delivered 1
      = .error (.invalidTransition .Pending .Delivered) :=
  (transition_table_enforced stocksFour basePending .Delivered 1).1 (by decide) (by decide)

/-- C2: on a transition entering Confirmed (from Pending) or OnTheWay (from
Confirmed), if any item with a variant requests more units than that
variant's current stock, the whole save is rejected with the
insufficient-stock `ValidationError` — before any status, timestamp or stock
write — and the bulk dispatch action likewise aborts the whole order. -/
theorem stock_gate_atomic (stocks : Nat → Int) (o : OrderState) (new : Status) (now : Nat)
    (hgate : (o.status = .Pending ∧ new = .Confirmed) ∨
      (o.status = .Confirmed ∧ new = .OnTheWay))
    (hfail : ∃ it ∈ o.items, ∃ w, it.variantId = some w ∧ stocks w < (it.quantity : Int)) :
    isInsufficient (orderSave stocks o new now) = true ∧
    (o.status = .Confirmed → isDispatchStockError (markAsOnTheWay stocks o now) = true) := by
  constructor
  · obtain ⟨v, req, hfi, _⟩ := findInsufficient_of_exists stocks o.items hfail
    unfold orderSave
    simp only [cleanCheck_gate_fail stocks o.status new o.items v req (stocks v) hgate hfi]
    rfl
  · intro hConf
    have hsome := findDispatchFailure_isSome_of_insufficient stocks o.items hfail
    obtain ⟨it, hit⟩ := Option.isSome_iff_exists.mp hsome
    unfold markAsOnTheWay
    rw [if_neg fun hne => hne hConf, hit]
    rfl

/-- Witness for C2 at a concrete input: confirming a Pending order whose item
wants 5 units of a variant holding 4 is rejected by the stock gate. -/
theorem stock_gate_atomic_witness :
    isInsufficient (orderSave stocksFour pendingBigItem .Confirmed 1) = true :=
  (stock_gate_atomic stocksFour pendingBigItem .Confirmed 1 (Or.inl ⟨rfl, rfl⟩)
    ⟨⟨some 1, 5, 10⟩, by decide, 1, rfl, by decide⟩).1

/-- C3: on any successful save, every variant's stock is decremented by the
total quantity the order's items request from it exactly when the transition
enters OnTheWay, incremented by that total exactly when it enters
ReturnedByClient or ReturnedByOwner, and untouched by every other transition;
and creating an order never touches stock. -/
theorem stock_mutation_exact (stocks : Nat → Int) (o : OrderState) (new : Status) (now : Nat)
    (o' : OrderState) (s' : Nat → Int)
    (h : orderSave stocks o new now = .ok (o', s')) :
    (∀ v, s' v =
      if o.status ≠ new ∧ new = .OnTheWay then stocks v - (sumQty v o.items : Int)
      else if o.status ≠ new ∧ (new = .ReturnedByClient ∨ new = .ReturnedByOwner) then
        stocks v + (sumQty v o.items : Int)
      else stocks v) ∧
    (∀ st fees now2 v, (orderCreate stocks st fees now2).2 v = stocks v) := by
  obtain ⟨hc, ho, hs⟩ := orderSave_ok_inv stocks o new now o' s' h
  have hitems : o'.items = o.items := by rw [ho, setTimestamps_items]
  constructor
  · intro v
    rw [hs, hitems]
    by_cases hne : o.status = new
    · simp [hne]
    · by_cases hot : new = .OnTheWay
      · subst hot
        simp [hne, decrementAll_apply]
      · by_cases hr : new = .ReturnedByClient ∨ new = .ReturnedByOwner
        · rcases hr with hr | hr <;> subst hr <;> simp [hne, incrementAll_apply]
        · simp [hne, hot, hr]
  · intro st fees now2 v
    unfold orderCreate
    by_cases h1 : st = .OnTheWay
    · simp [h1, setTimestamps_items, decrementAll]
    · by_cases h2 : st = .ReturnedByClient ∨ st = .ReturnedByOwner
      · simp [h1, h2, setTimestamps_items, incrementAll]
      · simp [h1, h2]

/-- Witness for C3 at a concrete input: dispatching `confirmedOneItem`
(variant 1 stock 4, quantity 3) leaves variant 1 at 1 unit. -/
theorem stock_mutation_exact_witness : afterDispatchStocks 1 = 1 := by
  have h : orderSave stocksFour confirmedOneItem .OnTheWay 2
      = .ok (afterDispatch, afterDispatchStocks) := by rfl
  have hw := (stock_mutation_exact stocksFour confirmedOneItem .OnTheWay 2
    afterDispatch afterDispatchStocks h).1 1
  rw [hw]
  decide

/-- C6: on any successful save, a status timestamp that is already set is
returned unchanged (so a no-op re-save never overwrites it and each field is
written at most once over any run), and a timestamp that does change was
unset, is stamped with the save's clock, and belongs to the status the order
just entered. -/
theorem timestamps_write_once (stocks : Nat → Int) (o : OrderState) (new : Status) (now : Nat)
    (o' : OrderState) (s' : Nat → Int)
    (h : orderSave stocks o new now = .ok (o', s')) :
    (o.confirmedAt ≠ none → o'.confirmedAt = o.confirmedAt) ∧
    (o'.confirmedAt ≠ o.confirmedAt →
      o'.confirmedAt = some now ∧ o.confirmedAt = none ∧ o'.status = .Confirmed) ∧
    (o.onTheWayAt ≠ none → o'.onTheWayAt = o.onTheWayAt) ∧
    (o'.onTheWayAt ≠ o.onTheWayAt →
      o'.onTheWayAt = some now ∧ o.onTheWayAt = none ∧ o'.status = .OnTheWay) ∧
    (o.deliveredAt ≠ none → o'.deliveredAt = o.deliveredAt) ∧
    (o'.deliveredAt ≠ o.deliveredAt →
      o'.deliveredAt = some now ∧ o.deliveredAt = none ∧ o'.status = .Delivered) ∧
    (o.returnedAt ≠ none → o'.returnedAt = o.returnedAt) ∧
    (o'.returnedAt ≠ o.returnedAt →
      o'.returnedAt = some now ∧ o.returnedAt = none ∧
        (o'.status = .ReturnedByClient ∨ o'.status = .ReturnedByOwner)) ∧
    (o.cancelledAt ≠ none → o'.cancelledAt = o.cancelledAt) ∧
    (o'.cancelledAt ≠ o.cancelledAt →
      o'.cancelledAt = some now ∧ o.cancelledAt = none ∧ o'.status = .Cancelled) := by
  obtain ⟨_, ho, _⟩ := orderSave_ok_inv stocks o new now o' s' h
  have hst : o'.status = new := by rw [ho, setTimestamps_status]
  have e1 : o'.confirmedAt
      = if new = .Confirmed ∧ o.confirmedAt = none then some now else o.confirmedAt := by
    rw [ho, setTimestamps_confirmedAt]
  have e2 : o'.onTheWayAt
      = if new = .OnTheWay ∧ o.onTheWayAt = none then some now else o.onTheWayAt := by
    rw [ho, setTimestamps_onTheWayAt]
  have e3 : o'.deliveredAt
      = if new = .Delivered ∧ o.deliveredAt = none then some now else o.deliveredAt := by
    rw [ho, setTimestamps_deliveredAt]
  have e4 : o'.returnedAt
      = if (new = .ReturnedByClient ∨ new = .ReturnedByOwner) ∧ o.returnedAt = none
        then some now else o.returnedAt := by
    rw [ho, setTimestamps_returnedAt]
  have e5 : o'.cancelledAt
      = if new = .Cancelled ∧ o.cancelledAt = none then some now else o.cancelledAt := by
    rw [ho, setTimestamps_cancelledAt]
  refine ⟨?_, ?_, ?_, ?_, ?_, ?_, ?_, ?_, ?_, ?_⟩
  · intro hset
    rw [e1, if_neg fun hc => hset hc.2]
  · intro hchg
    rw [e1] at hchg ⊢
    by_cases hc : new = .Confirmed ∧ o.confirmedAt = none
    · exact ⟨by rw [if_pos hc], hc.2, by rw [hst, hc.1]⟩
    · exact absurd rfl (by rw [if_neg hc] at hchg; exact hchg)
  · intro hset
    rw [e2, if_neg fun hc => hset hc.2]
  · intro hchg
    rw [e2] at hchg ⊢
    by_cases hc : new = .OnTheWay ∧ o.onTheWayAt = none
    · exact ⟨by rw [if_pos hc], hc.2, by rw [hst, hc.1]⟩
    · exact absurd rfl (by rw [if_neg hc] at hchg; exact hchg)
  · intro hset
    rw [e3, if_neg fun hc => hset hc.2]
  · intro hchg
    rw [e3] at hchg ⊢
    by_cases hc : new = .Delivered ∧ o.deliveredAt = none
    · exact ⟨by rw [if_pos hc], hc.2, by rw [hst, hc.1]⟩
    · exact absurd rfl (by rw [if_neg hc] at hchg; exact hchg)
  · intro hset
    rw [e4, if_neg fun hc => hset hc.2]
  · intro hchg
    rw [e4] at hchg ⊢
    by_cases hc : (new = .ReturnedByClient ∨ new = .ReturnedByOwner) ∧ o.returnedAt = none
    · refine ⟨by rw [if_pos hc], hc.2, ?_⟩
      rcases hc.1 with h1 | h1
      · exact Or.inl (by rw [hst, h1])
      · exact Or.inr (by rw [hst, h1])
    · exact absurd rfl (by rw [if_neg hc] at hchg; exact hchg)
  · intro hset
    rw [e5, if_neg fun hc => hset hc.2]
  · intro hchg
    rw [e5] at hchg ⊢
    by_cases hc : new = .Cancelled ∧ o.cancelledAt = none
    · exact ⟨by rw [if_pos hc], hc.2, by rw [hst, hc.1]⟩
    · exact absurd rfl (by rw [if_neg hc] at hchg; exact hchg)

/-- Witness for C6 at a concrete input: dispatching `confirmedOneItem` stamps
`on_the_way_at` and leaves the already-set `confirmed_at` untouched. -/
theorem timestamps_write_once_witness :
    afterDispatch.confirmedAt = confirmedOneItem.confirmedAt ∧
    afterDispatch.onTheWayAt = some 2 := by
  have h : orderSave stocksFour confirmedOneItem .OnTheWay 2
      = .ok (afterDispatch, afterDispatchStocks) := by rfl
  have hw := timestamps_write_once stocksFour confirmedOneItem .OnTheWay 2
    afterDispatch afterDispatchStocks h
  exact ⟨hw.1 (by decide), by decide⟩

/-- C4 (counterexample): changing only `delivery_fees` (10 → order saved with
fee 5) does not recompute `total_amount` — the stored total stays 10 while
`Σ price·quantity + delivery_fees = 15`, because `Order.save` never calls
`update_total`. -/
theorem total_stale_after_fee_change :
    totalConsistentAfter (changeDeliveryFees stocksFour pendingSmallItem 5 2) = some false := by
  decide

/-- C4 (amended): immediately after an item is added, changed or removed,
`total_amount = Σ(item.price × item.quantity) + delivery_fees` — a change to
`delivery_fees` alone does not trigger the recomputation. -/
theorem total_recomputed_on_item_mutation (cat : Catalog) (o : OrderState) (it : Item)
    (i : Nat) :
    (orderItemAdd cat o it).totalAmount
      = itemsTotal (orderItemAdd cat o it).items + (orderItemAdd cat o it).deliveryFees ∧
    (orderItemUpdate cat o i it).totalAmount
      = itemsTotal (orderItemUpdate cat o i it).items + (orderItemUpdate cat o i it).deliveryFees ∧
    (orderItemDelete o i).totalAmount
      = itemsTotal (orderItemDelete o i).items + (orderItemDelete o i).deliveryFees :=
  ⟨rfl, rfl, rfl⟩

/-- C5 (code bug): the stock gate checks each item against the variant's
stock independently, so an order holding two items of quantity 3 on the same
variant with stock 4 passes the Confirmed→OnTheWay gate and the decrement
drives the variant's stock to −2 — the transition is accepted
(`saveOrder ≠ none`) instead of being refused. -/
theorem negative_stock_reachable :
    saveStock (orderSave stocksFour confirmedDupItems .OnTheWay 1) 1 = some (-2) ∧
    saveOrder (orderSave stocksFour confirmedDupItems .OnTheWay 1) ≠ none ∧
    ((-2 : Int) < 0) := by
  decide

/-- C7 (counterexample): a no-op transition request through a bulk action is
rejected, not accepted: `mark_as_confirmed` on an already-Confirmed order
reports "cannot be confirmed" instead of succeeding as a no-op. -/
theorem noop_bulk_rejected :
    markAsConfirmed stocksFour confirmedOneItem 3 = .error (.wrongStatus .Confirmed) := by
  rfl

/-- C7 (amended): through `Order.save` (the path behind single-object edits
and `save_model`), requesting the current status always succeeds as a strict
no-op — no status, timestamp or stock change — for every order whose current
status already carries its timestamp (true of every order that entered its
status through a save); the bulk actions instead reject a request whose
target equals the current status, changing nothing. -/
theorem noop_model_save (stocks : Nat → Int) (o : OrderState) (now : Nat) (h : tsOk o) :
    orderSave stocks o o.status now = .ok (o, stocks) ∧
    (o.status ≠ .Pending → markAsConfirmed stocks o now = .error (.wrongStatus o.status)) := by
  constructor
  · have hc : cleanCheck stocks o.status o.status o.items = .ok () := by
      unfold cleanCheck
      rw [if_neg fun hcond => hcond.1 rfl, if_neg]
      rintro (⟨h1, h2⟩ | ⟨h1, h2⟩) <;> rw [h1] at h2 <;> cases h2
    unfold orderSave
    simp only [hc]
    rw [show ({ o with status := o.status } : OrderState) = o from rfl,
      setTimestamps_id_of_tsOk o now h, if_neg fun hne => hne rfl]
  · intro hne
    unfold markAsConfirmed
    rw [if_pos hne]

/-- Witness for C7's amended claim at a concrete input: re-saving
`confirmedOneItem` with its current status changes nothing. -/
theorem noop_model_save_witness :
    tsOk confirmedOneItem ∧
    orderSave stocksFour confirmedOneItem confirmedOneItem.status 9
      = .ok (confirmedOneItem, stocksFour) :=
  ⟨by decide, (noop_model_save stocksFour confirmedOneItem 9 (by decide)).1⟩

/-- C8 (counterexample): an item saved while the product costs 10 stores
price 10, but editing the item (here its quantity) and re-saving it after
the catalog price rose to 20 re-runs the snapshot in `OrderItem.save` and
the stored price becomes 20 — the price is not immutable post-creation. -/
theorem price_changes_on_resave :
    itemSnapshotOnce.items.map Item.price = [10] ∧
    itemResaved.items.map Item.price = [20] := by
  decide

/-- C8 (amended): the item's price is snapshotted from the catalog (variant
price when the variant defines one — `ProductVariant` in this repository
does not, so the product price applies) on every save of that item; order
saves never touch item rows, and an item add or update leaves every other
stored price unchanged, so a catalog change affects a stored price only when
that item itself is saved again. -/
theorem price_snapshot_on_save (stocks : Nat → Int) (o : OrderState) (new : Status)
    (now : Nat) (o' : OrderState) (s' : Nat → Int) (cat : Catalog) (it : Item) (i v : Nat)
    (hsave : orderSave stocks o new now = .ok (o', s'))
    (hv : it.variantId = some v) (hvp : cat.variantPrice v = none) :
    o'.items = o.items ∧
    (orderItemAdd cat o it).items = o.items ++ [snapshotPrice cat it] ∧
    (orderItemUpdate cat o i it).items = o.items.set i (snapshotPrice cat it) ∧
    (snapshotPrice cat it).price = cat.productPrice (cat.variantProduct v) := by
  obtain ⟨_, ho, _⟩ := orderSave_ok_inv stocks o new now o' s' hsave
  refine ⟨by rw [ho, setTimestamps_items], rfl, rfl, ?_⟩
  simp [snapshotPrice, hv, hvp]

/-- Witness for C8's amended claim at a concrete input: cancelling
`confirmedOneItem` leaves its item rows (hence their prices) unchanged, and
the snapshot of an item of variant 1 under `catalogTen` is the product
price 10. -/
theorem price_snapshot_on_save_witness :
    afterCancel.items = confirmedOneItem.items ∧
    (snapshotPrice catalogTen ⟨some 1, 2, 0⟩).price = 10 := by
  have h : orderSave stocksFour confirmedOneItem .Cancelled 3
      = .ok (afterCancel, stocksFour) := by rfl
  have hw := price_snapshot_on_save stocksFour confirmedOneItem .Cancelled 3
    afterCancel stocksFour catalogTen ⟨some 1, 2, 0⟩ 0 1 h rfl rfl
  exact ⟨hw.1, hw.2.2.2⟩

/-- C9 (counterexample): the model layer performs no `OrderLocked` rejection:
saving a new item on an order in the locked status OnTheWay succeeds and
changes both the item rows and the stored total. -/
theorem locked_item_mutation_not_rejected :
    (orderItemAdd catalogTen onTheWayOrder ⟨some 2, 1, 0⟩).totalAmount
      ≠ onTheWayOrder.totalAmount ∧
    (orderItemAdd catalogTen onTheWayOrder ⟨some 2, 1, 0⟩).items ≠ onTheWayOrder.items := by
  decide

/-- C9 (amended): the gating lives only in the admin surface: for a saved
order, `product_variant` and `quantity` are read-only exactly when the status
is in the locked set (OnTheWay and all terminal states), and item add/delete
permissions are denied for every saved order regardless of status; no
`OrderLocked` error exists and `OrderItem.save`/`delete` themselves check
nothing. -/
theorem locked_statuses_admin_gating :
    ∀ s : Status,
      (("product_variant" ∈ inlineReadonlyFields (some s)) ↔ s ∈ lockedStatuses) ∧
      (("quantity" ∈ inlineReadonlyFields (some s)) ↔ s ∈ lockedStatuses) ∧
      inlineHasAddPermission (some s) = false ∧
      inlineHasDeletePermission (some s) = false := by
  intro s
  cases s <;> exact ⟨by decide, by decide, rfl, rfl⟩

/-- C10 (counterexample): in the bulk dispatch action, an item whose
`product_variant` is null is not skipped: `variants_map.get(None)` yields
`None` and the order is rejected with the not-enough-stock error. -/
theorem null_variant_rejected_by_dispatch :
    markAsOnTheWay stocksFour confirmedNullItem 4 = .error (.dispatchFailure none) := by
  rfl

/-- C10 (amended): items with a null variant are skipped by the stock gate of
`Order.clean`/`save_model` and contribute nothing to the stock
decrement/increment — but the bulk `mark_as_on_the_way` action rejects any
Confirmed order that contains such an item. -/
theorem null_variant_items_skipped (stocks : Nat → Int) (items : List Item) (v : Nat)
    (o : OrderState) (now : Nat) (hConf : o.status = .Confirmed)
    (hNull : ∃ it ∈ o.items, it.variantId = none) :
    findInsufficient stocks items
      = findInsufficient stocks (items.filter fun it => it.variantId.isSome) ∧
    decrementAll stocks items v
      = decrementAll stocks (items.filter fun it => it.variantId.isSome) v ∧
    incrementAll stocks items v
      = incrementAll stocks (items.filter fun it => it.variantId.isSome) v ∧
    adminRejected (markAsOnTheWay stocks o now) = true := by
  refine ⟨findInsufficient_skips_null stocks items, ?_, ?_, ?_⟩
  · rw [decrementAll_apply, decrementAll_apply, sumQty_skips_null]
  · rw [incrementAll_apply, incrementAll_apply, sumQty_skips_null]
  · obtain ⟨it, hit⟩ := Option.isSome_iff_exists.mp
      (findDispatchFailure_isSome_of_null stocks o.items hNull)
    unfold markAsOnTheWay
    rw [if_neg fun hne => hne hConf, hit]
    rfl

/-- Witness for C10's amended claim at a concrete input: dispatching a
Confirmed order holding one null-variant item is rejected. -/
theorem null_variant_items_skipped_witness :
    adminRejected (markAsOnTheWay stocksFour confirmedNullItem 4) = true :=
  (null_variant_items_skipped stocksFour confirmedNullItem.items 1 confirmedNullItem 4
    rfl ⟨⟨none, 2, 5⟩, by decide, rfl⟩).2.2.2

end EcomShoe
